import Mathlib

/-!
Shallow embedding of the translation-resolution core of `bevy-intl`
(src/src/lib.rs) and proofs about it.

Modelling conventions:
* Rust `HashMap<String, V>` values become association lists
  `List (String × V)` queried with `List.lookup` (keys are unique in the
  source maps, so first-match lookup agrees with hash lookup).
* The placeholder regex `\{\{(\w*)\}\}` and `Regex::split` become a
  character scanner (`splitPHFuel` / `argSplit`) performing leftmost,
  non-overlapping matching; `\w` is modelled as ASCII alphanumeric or
  underscore (all placeholders in the repository are ASCII).
* `&[&dyn ToString]` argument slices become `List String`: the arguments
  already stringified, exactly as `to_string()` renders them.
* The two `.expect(...)` panics in `I18n::translation` are modelled by
  returning `none`; `usize` counts become `Nat`.
* Disk access in `impl Default for I18n` is modelled by passing the
  outcome of the two loaders as parameters (`none` models an `Err`).
-/

namespace BevyIntl

/-- `SectionValue` from src/src/lib.rs: a section entry is either plain
text or a nested map of variant keys to strings. -/
inductive SectionValue where
  | Text : String → SectionValue
  | Map : List (String × String) → SectionValue
deriving DecidableEq

/-- `SectionMap`: translation keys to values within one file. -/
abbrev SectionMap := List (String × SectionValue)

/-- `FileMap`: file names to their section maps. -/
abbrev FileMap := List (String × SectionMap)

/-- `LangMap`: language codes to file maps. -/
abbrev LangMap := List (String × FileMap)

/-- The `I18n` resource: translations plus language settings. -/
structure I18n where
  translations : LangMap
  current_lang : String
  locale_folders_list : List String
  fallback_lang : String
deriving DecidableEq

/-- `I18nPart`: the bound pair of sections for one translation file. -/
structure I18nPart where
  file_traductions : SectionMap
  fallback_traduction : SectionMap
deriving DecidableEq

/-- The degraded catalog built in `impl Default for I18n` when
`load_translation` fails: one language `"error"` with one file `"error"`
whose single key `"error"` maps to the text `"error"`. -/
def degraded_langs : LangMap :=
  [("error", [("error", [("error", SectionValue.Text "error")])])]

/-- `impl Default for I18n`, parametrized by the outcomes of the two disk
loaders: `loadResult` stands for `load_translation()` and `folderResult`
for `get_folder_locale_list()`, with `none` modelling an `Err` result.
The field values mirror the source: current and fallback language are both
set to `"en"` unconditionally. -/
def I18n.default (loadResult : Option LangMap)
    (folderResult : Option (List String)) : I18n :=
  { translations := loadResult.getD degraded_langs
    current_lang := "en"
    locale_folders_list := folderResult.getD []
    fallback_lang := "en" }

/-- `I18n::translation`: build the bound section pair for one file. The
two `.expect` panics (current or fallback language absent from the
catalog) are modelled by returning `none`. -/
def I18n.translation (i : I18n) (translation_file : String) :
    Option I18nPart :=
  let error_map : SectionMap := [("error", SectionValue.Text "error")]
  match List.lookup i.current_lang i.translations with
  | none => none
  | some lang_traduction =>
    match List.lookup i.fallback_lang i.translations with
    | none => none
    | some fallback_lang_traduction =>
      let section_file := List.lookup translation_file lang_traduction
      let fallback_section_file :=
        (List.lookup translation_file fallback_lang_traduction).getD error_map
      let final_section_file := section_file.getD fallback_section_file
      some { file_traductions := final_section_file
             fallback_traduction := fallback_section_file }

/-- `I18n::set_lang`: change the current language, ignoring locales that
are not in the discovered folder list. -/
def I18n.set_lang (i : I18n) (locale : String) : I18n :=
  if locale ∈ i.locale_folders_list then
    { i with current_lang := locale }
  else i

/-- `LanguageAppExt::set_fallback_lang` (the body acting on the `I18n`
resource): change the fallback language, ignoring unknown locales. -/
def I18n.set_fallback_lang (i : I18n) (locale : String) : I18n :=
  if locale ∈ i.locale_folders_list then
    { i with fallback_lang := locale }
  else i

/-- `I18n::get_lang`. -/
def I18n.get_lang (i : I18n) : String := i.current_lang

/-- A language-switch request against the `I18n` resource. -/
inductive LangOp where
  | setLang : String → LangOp
  | setFallback : String → LangOp

/-- Apply one language-switch request. -/
def applyOp (i : I18n) : LangOp → I18n
  | LangOp.setLang s => i.set_lang s
  | LangOp.setFallback s => i.set_fallback_lang s

/-- Apply a sequence of language-switch requests, oldest first. -/
def applyOps (i : I18n) (ops : List LangOp) : I18n := ops.foldl applyOp i

/-- `\w` of the placeholder regex, modelled as ASCII. -/
def isWordChar (c : Char) : Bool := c.isAlphanum || c == '_'

/-- After an opening `\x7b\x7b`, consume `\w*` greedily and then require
`\x7d\x7d`; return the remaining characters on success. Greedy matching is
deterministic here because `\w` never matches a closing brace. -/
def tryClose (l : List Char) : Option (List Char) :=
  match l.dropWhile isWordChar with
  | '\x7d' :: '\x7d' :: r => some r
  | _ => none

/-- Leftmost, non-overlapping splitting on the placeholder pattern, as
`ARG_RE.split` does. `acc` holds the current literal segment reversed.
Each step consumes at least one character, so fuel equal to the input
length plus one is never exhausted. -/
def splitPHFuel : Nat → List Char → List Char → List (List Char)
  | 0, rest, acc => [acc.reverse ++ rest]
  | fuel + 1, l, acc =>
    match l with
    | [] => [acc.reverse]
    | '\x7b' :: '\x7b' :: rest =>
      match tryClose rest with
      | some r => acc.reverse :: splitPHFuel fuel r []
      | none => splitPHFuel fuel ('\x7b' :: rest) ('\x7b' :: acc)
    | c :: rest => splitPHFuel fuel rest (c :: acc)

/-- `ARG_RE.split` on a string: the literal segments around every
placeholder match, trailing empty segment included. -/
def argSplit (s : String) : List String :=
  (splitPHFuel (s.data.length + 1) s.data []).map (fun l => String.mk l)

/-- The rebuild loop of `t_with_arg` and `t_with_gender_and_arg`: append
each segment, then the argument with the same index when one exists. -/
def interleave : List String → List String → String
  | [], _ => ""
  | p :: ps, [] => p ++ interleave ps []
  | p :: ps, a :: rest => p ++ a ++ interleave ps rest

/-- The rebuild loop of `t_with_plurial` with its `is_arg_inserted` flag:
the stringified count is appended right after the first segment. -/
def rebuildWithCount : List String → Bool → Nat → String
  | [], _, _ => ""
  | p :: ps, false, c => p ++ toString c ++ rebuildWithCount ps true c
  | p :: ps, true, c => p ++ rebuildWithCount ps true c

/-- The `get_text` closure of `I18nPart::t`: a key is used only when it
holds the `Text` variant. -/
def get_text (m : SectionMap) (k : String) : Option String :=
  (List.lookup k m).bind fun v =>
    match v with
    | SectionValue.Text s => some s
    | SectionValue.Map _ => none

/-- `I18nPart::t`: plain lookup with key-level fallback and the
sentinel for a miss. -/
def I18nPart.t (p : I18nPart) (translation_line : String) : String :=
  ((get_text p.file_traductions translation_line).orElse
      fun _ => get_text p.fallback_traduction translation_line).getD
    "Error missing text"

/-- `I18nPart::t_with_arg`: plain lookup, split on placeholders, then
interleave the segments with the stringified arguments. -/
def I18nPart.t_with_arg (p : I18nPart) (translation_line : String)
    (arguments : List String) : String :=
  interleave (argSplit (p.t translation_line)) arguments

/-- The `get_hash` closure of `t_with_plurial` and `t_with_gender`: a key
is used only when it holds the `Map` (variant set) variant. -/
def get_hash (m : SectionMap) (k : String) :
    Option (List (String × String)) :=
  (List.lookup k m).bind fun v =>
    match v with
    | SectionValue.Text _ => none
    | SectionValue.Map s => some s

/-- The `get_line` closure of `t_with_plurial` and `t_with_gender`: look
the bucket up in the current section's variant set, then in the fallback
section's, and fall back to the sentinel. -/
def get_line (p : I18nPart) (key line : String) : String :=
  (((get_hash p.file_traductions key).bind fun h => List.lookup line h).orElse
      fun _ =>
        (get_hash p.fallback_traduction key).bind fun h =>
          List.lookup line h).getD
    "Error missing text"

/-- `I18nPart::t_with_plurial`: bucket selection by count, then the
single-count rebuild loop. -/
def I18nPart.t_with_plurial (p : I18nPart) (translation_line : String)
    (count : Nat) : String :=
  let match_line :=
    match count with
    | 0 => get_line p translation_line "none"
    | 1 => get_line p translation_line "one"
    | _ => get_line p translation_line "many"
  rebuildWithCount (argSplit match_line) false count

/-- `I18nPart::t_with_gender`: variant lookup keyed by the caller's
gender tag. -/
def I18nPart.t_with_gender (p : I18nPart)
    (translation_line gender : String) : String :=
  get_line p translation_line gender

/-- `I18nPart::t_with_gender_and_arg`: gender lookup followed by the
positional interleaving of `t_with_arg`. -/
def I18nPart.t_with_gender_and_arg (p : I18nPart)
    (translation_line gender : String) (arguments : List String) : String :=
  interleave (argSplit (p.t_with_gender translation_line gender)) arguments

/-- The plural bucket selected for a count: 0 to "none", 1 to "one",
anything else to "many". -/
def bucketOf (count : Nat) : String :=
  match count with
  | 0 => "none"
  | 1 => "one"
  | _ => "many"

/-- Concatenation of a list of strings. -/
def joinAll : List String → String
  | [] => ""
  | p :: ps => p ++ joinAll ps

/-! Helper lemmas shared by the claim theorems. -/

theorem interleave_nil (ps : List String) : interleave ps [] = joinAll ps := by
  induction ps with
  | nil => rfl
  | cons p ps ih => simp [interleave, joinAll, ih]

theorem interleave_eq (ps as : List String) :
    interleave ps as =
      joinAll ((ps.zip as).map fun q => q.1 ++ q.2) ++
        joinAll (ps.drop as.length) := by
  induction ps generalizing as with
  | nil => simp [interleave, joinAll, String.append_empty]
  | cons p ps ih =>
    cases as with
    | nil =>
      simp [interleave_nil, joinAll, String.empty_append]
    | cons a rest =>
      simp [interleave, joinAll, ih, String.append_assoc, List.zip]

theorem rebuildWithCount_true (ps : List String) (c : Nat) :
    rebuildWithCount ps true c = joinAll ps := by
  induction ps with
  | nil => rfl
  | cons p ps ih => simp [rebuildWithCount, joinAll, ih]

theorem rebuildWithCount_false (ps : List String) (c : Nat) :
    rebuildWithCount ps false c =
      match ps with
      | [] => ""
      | s :: rest => s ++ toString c ++ joinAll rest := by
  cases ps with
  | nil => rfl
  | cons s rest => simp [rebuildWithCount, rebuildWithCount_true]

theorem t_with_plurial_eq_bucket (p : I18nPart) (key : String) (count : Nat) :
    p.t_with_plurial key count =
      rebuildWithCount (argSplit (get_line p key (bucketOf count))) false count := by
  rcases count with _ | _ | n <;> rfl

theorem set_lang_mem (i : I18n) (s : String) (h : s ∈ i.locale_folders_list) :
    i.set_lang s = { i with current_lang := s } := by
  unfold I18n.set_lang; rw [if_pos h]

theorem set_lang_not_mem (i : I18n) (s : String)
    (h : s ∉ i.locale_folders_list) : i.set_lang s = i := by
  unfold I18n.set_lang; rw [if_neg h]

theorem set_fallback_lang_mem (i : I18n) (s : String)
    (h : s ∈ i.locale_folders_list) :
    i.set_fallback_lang s = { i with fallback_lang := s } := by
  unfold I18n.set_fallback_lang; rw [if_pos h]

theorem set_fallback_lang_not_mem (i : I18n) (s : String)
    (h : s ∉ i.locale_folders_list) : i.set_fallback_lang s = i := by
  unfold I18n.set_fallback_lang; rw [if_neg h]

theorem set_lang_translations (i : I18n) (s : String) :
    (i.set_lang s).translations = i.translations := by
  by_cases h : s ∈ i.locale_folders_list
  · rw [set_lang_mem i s h]
  · rw [set_lang_not_mem i s h]

theorem set_fallback_lang_translations (i : I18n) (s : String) :
    (i.set_fallback_lang s).translations = i.translations := by
  by_cases h : s ∈ i.locale_folders_list
  · rw [set_fallback_lang_mem i s h]
  · rw [set_fallback_lang_not_mem i s h]

theorem applyOp_translations (i : I18n) (op : LangOp) :
    (applyOp i op).translations = i.translations := by
  cases op with
  | setLang s => exact set_lang_translations i s
  | setFallback s => exact set_fallback_lang_translations i s

theorem applyOp_folders (i : I18n) (op : LangOp) :
    (applyOp i op).locale_folders_list = i.locale_folders_list := by
  cases op with
  | setLang s =>
    by_cases h : s ∈ i.locale_folders_list
    · rw [show applyOp i (LangOp.setLang s) = i.set_lang s from rfl,
        set_lang_mem i s h]
    · rw [show applyOp i (LangOp.setLang s) = i.set_lang s from rfl,
        set_lang_not_mem i s h]
  | setFallback s =>
    by_cases h : s ∈ i.locale_folders_list
    · rw [show applyOp i (LangOp.setFallback s) = i.set_fallback_lang s from rfl,
        set_fallback_lang_mem i s h]
    · rw [show applyOp i (LangOp.setFallback s) = i.set_fallback_lang s from rfl,
        set_fallback_lang_not_mem i s h]

theorem applyOps_translations (i : I18n) (ops : List LangOp) :
    (applyOps i ops).translations = i.translations := by
  induction ops generalizing i with
  | nil => rfl
  | cons op ops ih =>
    show (applyOps (applyOp i op) ops).translations = _
    rw [ih, applyOp_translations]

theorem applyOp_inv (i : I18n) (op : LangOp)
    (hlist : ∀ l ∈ i.locale_folders_list,
      (List.lookup l i.translations).isSome = true)
    (hc : (List.lookup i.current_lang i.translations).isSome = true)
    (hf : (List.lookup i.fallback_lang i.translations).isSome = true) :
    (List.lookup (applyOp i op).current_lang (applyOp i op).translations).isSome
        = true ∧
      (List.lookup (applyOp i op).fallback_lang
        (applyOp i op).translations).isSome = true := by
  cases op with
  | setLang s =>
    by_cases hmem : s ∈ i.locale_folders_list
    · rw [show applyOp i (LangOp.setLang s) = i.set_lang s from rfl,
        set_lang_mem i s hmem]
      exact ⟨hlist s hmem, hf⟩
    · rw [show applyOp i (LangOp.setLang s) = i.set_lang s from rfl,
        set_lang_not_mem i s hmem]
      exact ⟨hc, hf⟩
  | setFallback s =>
    by_cases hmem : s ∈ i.locale_folders_list
    · rw [show applyOp i (LangOp.setFallback s) = i.set_fallback_lang s from rfl,
        set_fallback_lang_mem i s hmem]
      exact ⟨hc, hlist s hmem⟩
    · rw [show applyOp i (LangOp.setFallback s) = i.set_fallback_lang s from rfl,
        set_fallback_lang_not_mem i s hmem]
      exact ⟨hc, hf⟩

theorem translation_congr (i j : I18n) (f : String)
    (ht : i.translations = j.translations)
    (hc : i.current_lang = j.current_lang)
    (hf : i.fallback_lang = j.fallback_lang) :
    i.translation f = j.translation f := by
  unfold I18n.translation
  rw [ht, hc, hf]

theorem variant_lookup_none (m : SectionMap) (key g : String)
    (hm : ∀ mm, List.lookup key m = some (SectionValue.Map mm) →
      List.lookup g mm = none) :
    ((get_hash m key).bind fun h => List.lookup g h) = none := by
  unfold get_hash
  cases hl : List.lookup key m with
  | none => rfl
  | some v =>
    cases v with
    | Text s => rfl
    | Map mm => simpa using hm mm hl

theorem text_lookup_none (m : SectionMap) (k : String)
    (hm : ∀ s, List.lookup k m ≠ some (SectionValue.Text s)) :
    get_text m k = none := by
  unfold get_text
  cases hl : List.lookup k m with
  | none => rfl
  | some v =>
    cases v with
    | Text s => exact absurd hl (hm s)
    | Map mm => rfl

/-! Concrete states used by witnesses and counterexamples. -/

/-- A state with languages "en" and "fr", current "fr", fallback "en",
where only "en" carries the "ui" file. -/
def iUiEn : I18n :=
  { translations := [("en", [("ui", [("hello", SectionValue.Text "Hi")])]),
                     ("fr", [])]
    current_lang := "fr"
    locale_folders_list := ["en", "fr"]
    fallback_lang := "en" }

/-- A state with empty file maps for "en" and "fr". -/
def iTwoLangs : I18n :=
  { translations := [("en", []), ("fr", [])]
    current_lang := "en"
    locale_folders_list := ["en", "fr"]
    fallback_lang := "en" }

/-- A state whose current language "en" owns the "ui" file. -/
def iSnap : I18n :=
  { translations := [("en", [("ui", [("hello", SectionValue.Text "Hi")])])]
    current_lang := "en"
    locale_folders_list := ["en"]
    fallback_lang := "en" }

/-- The bound pair produced by `iSnap.translation "ui"`. -/
def pSnap : I18nPart :=
  { file_traductions := [("hello", SectionValue.Text "Hi")]
    fallback_traduction := [("hello", SectionValue.Text "Hi")] }

/-- A bound pair whose "greet" key is a plural variant set in both
sections, as in the fr/ui.json scenario of the spec. -/
def pGreet : I18nPart :=
  { file_traductions :=
      [("greet", SectionValue.Map
        [("one", "Salut"), ("many", "Salut à tous \x7b\x7bcount\x7d\x7d")])]
    fallback_traduction :=
      [("greet", SectionValue.Map
        [("one", "Salut"), ("many", "Salut à tous \x7b\x7bcount\x7d\x7d")])] }

/-- A bound pair whose "hello" text has one placeholder. -/
def pHello : I18nPart :=
  { file_traductions := [("hello", SectionValue.Text "Hi \x7b\x7bname\x7d\x7d")]
    fallback_traduction := [] }

/-- A bound pair where the primary variant set lacks the "none" bucket
that the fallback variant set provides. -/
def pBuckets : I18nPart :=
  { file_traductions := [("k", SectionValue.Map [("one", "A")])]
    fallback_traduction := [("k", SectionValue.Map [("none", "Z")])] }

/-- A bound pair with a text key in the primary section only and another
in the fallback section only. -/
def pText : I18nPart :=
  { file_traductions := [("a", SectionValue.Text "A")]
    fallback_traduction := [("b", SectionValue.Text "B")] }

/-- A bound pair with masc/fem gender variants in both sections. -/
def pGender : I18nPart :=
  { file_traductions := [("who", SectionValue.Map [("masc", "il"), ("fem", "elle")])]
    fallback_traduction := [("who", SectionValue.Map [("masc", "he"), ("fem", "she")])] }

/-- A bound pair where the "who" key is plain text, not a variant set. -/
def pGenderText : I18nPart :=
  { file_traductions := [("who", SectionValue.Text "x")]
    fallback_traduction := [] }

/-! Claim theorems. -/

/-- C1: when the current (or fallback) language code is absent from the
catalog, `I18n::translation` does not produce a resolved view: the
embedding returns `none`, modelling the `.expect("Language not found")`
panic in the source. The state shown is reachable: it is exactly the
`Default`-constructed resource after `load_translation` failed (degraded
catalog keyed "error", current and fallback language "en"). The claim's
required behavior — an explicit, recoverable failure reported to the
caller — is not what the source does: it crashes the process. -/
theorem translation_missing_lang_panics :
    (I18n.default none (some [])).translation "ui" = none ∧
      (I18n.default none (some [])).current_lang = "en" ∧
      List.lookup "en" (I18n.default none (some [])).translations = none := by
  decide

/-- C2 (counterexample): after construction via `Default` with a failed
load, the current and fallback language codes are not keys of the
catalog's language map, so the claimed invariant fails in a reachable
state. -/
theorem default_breaks_lang_invariant :
    List.lookup (I18n.default none (some [])).current_lang
        (I18n.default none (some [])).translations = none ∧
      List.lookup (I18n.default none (some [])).fallback_lang
        (I18n.default none (some [])).translations = none := by
  decide

/-- C2 (amended): provided the state's current and fallback codes are
keys of the catalog and every discovered locale in the folder list is a
key of the catalog, any sequence of `set_lang` / `set_fallback_lang`
calls preserves both memberships. (`Default` alone does not establish
the invariant, as the counterexample shows.) -/
theorem lang_invariant_preserved (i : I18n) (ops : List LangOp)
    (hc : (List.lookup i.current_lang i.translations).isSome = true)
    (hf : (List.lookup i.fallback_lang i.translations).isSome = true)
    (hlist : ∀ l ∈ i.locale_folders_list,
      (List.lookup l i.translations).isSome = true) :
    (List.lookup (applyOps i ops).current_lang
        (applyOps i ops).translations).isSome = true ∧
      (List.lookup (applyOps i ops).fallback_lang
        (applyOps i ops).translations).isSome = true := by
  induction ops generalizing i with
  | nil => exact ⟨hc, hf⟩
  | cons op ops ih =>
    have hstep := applyOp_inv i op hlist hc hf
    have hlist2 : ∀ l ∈ (applyOp i op).locale_folders_list,
        (List.lookup l (applyOp i op).translations).isSome = true := by
      intro l hl
      rw [applyOp_translations]
      exact hlist l (applyOp_folders i op ▸ hl)
    show ((List.lookup (applyOps (applyOp i op) ops).current_lang
        (applyOps (applyOp i op) ops).translations).isSome = true) ∧ _
    exact ih (applyOp i op) hstep.1 hstep.2 hlist2

/-- C2 (witness): the amended preservation theorem applied to a concrete
two-language state and a concrete operation sequence. -/
theorem lang_invariant_preserved_witness :
    (List.lookup (applyOps iTwoLangs
          [LangOp.setLang "fr", LangOp.setFallback "de"]).current_lang
        (applyOps iTwoLangs
          [LangOp.setLang "fr", LangOp.setFallback "de"]).translations).isSome
        = true ∧
      (List.lookup (applyOps iTwoLangs
          [LangOp.setLang "fr", LangOp.setFallback "de"]).fallback_lang
        (applyOps iTwoLangs
          [LangOp.setLang "fr", LangOp.setFallback "de"]).translations).isSome
        = true :=
  lang_invariant_preserved iTwoLangs
    [LangOp.setLang "fr", LangOp.setFallback "de"]
    (by decide) (by decide) (by decide)

/-- C3 (counterexample): with the "one" variant equal to "Salut",
`t_with_plurial "greet" 1` yields "Salut1", not "Salut": the count is
appended even though the chosen variant contains no placeholder. -/
theorem plurial_one_appends_count :
    pGreet.t_with_plurial "greet" 1 = "Salut1" ∧
      pGreet.t_with_plurial "greet" 1 ≠ "Salut" := by
  decide

/-- C3 (amended): `t_with_plurial` selects the "none" variant for count
0, the "one" variant for count 1, and the "many" variant otherwise, and
formats the chosen line by inserting the stringified count immediately
after the first literal segment: at the first placeholder when one
exists, and appended to the end of the string when none does (so
plural("greet", 1) yields "Salut1" when the "one" variant is "Salut"). -/
theorem t_with_plurial_amended (p : I18nPart) (key : String) (count : Nat) :
    p.t_with_plurial key count =
      match argSplit (get_line p key (bucketOf count)) with
      | [] => ""
      | s :: rest => s ++ toString count ++ joinAll rest := by
  rw [t_with_plurial_eq_bucket, rebuildWithCount_false]

/-- C4 (counterexample): a string with one placeholder given two
arguments consumes both — the second argument is appended after the
final segment rather than ignored, so more than N substitutions occur. -/
theorem extra_arg_not_ignored :
    pHello.t_with_arg "hello" ["Sam", "Bob"] = "Hi SamBob" ∧
      pHello.t_with_arg "hello" ["Sam", "Bob"] ≠ "Hi Sam" := by
  decide

/-- C4 (amended): `t_with_arg` splits the resolved string into N+1
literal segments around its N placeholders and appends the i-th argument
after the i-th segment for every i below min(N+1, number of arguments):
substitution is order-preserving and no argument is reused; with fewer
than N arguments the trailing placeholders become empty insertions; with
N or more arguments all N placeholders are substituted, but an (N+1)-th
argument is also consumed and appended after the final segment — only
arguments beyond N+1 are ignored. -/
theorem t_with_arg_amended (p : I18nPart) (key : String)
    (args : List String) :
    p.t_with_arg key args =
      joinAll (((argSplit (p.t key)).zip args).map fun q => q.1 ++ q.2) ++
        joinAll ((argSplit (p.t key)).drop args.length) := by
  unfold I18nPart.t_with_arg
  exact interleave_eq _ _

/-- C5: when both the current and the fallback language codes resolve in
the catalog, `translation F` returns the pair whose fallback component
is Catalog[fallback][F] when present and otherwise the synthesized
one-entry "error" section, and whose primary component is
Catalog[current][F] when present and otherwise that fallback component. -/
theorem translation_spec (i : I18n) (F : String) (L FB : FileMap)
    (hc : List.lookup i.current_lang i.translations = some L)
    (hf : List.lookup i.fallback_lang i.translations = some FB) :
    i.translation F =
      some { file_traductions :=
               (List.lookup F L).getD
                 ((List.lookup F FB).getD [("error", SectionValue.Text "error")])
             fallback_traduction :=
               (List.lookup F FB).getD
                 [("error", SectionValue.Text "error")] } := by
  unfold I18n.translation
  rw [hc, hf]

/-- C5 (witness): the view-construction theorem applied to a concrete
state whose current language lacks the "ui" file, showing the collapse
to the fallback section. -/
theorem translation_spec_witness :
    iUiEn.translation "ui" =
      some { file_traductions := [("hello", SectionValue.Text "Hi")]
             fallback_traduction := [("hello", SectionValue.Text "Hi")] } :=
  translation_spec iUiEn "ui" []
    [("ui", [("hello", SectionValue.Text "Hi")])] rfl rfl

/-- C6: plain lookup `t` returns the primary section's string when the
key holds the Text variant there; otherwise the fallback section's
string when the key holds the Text variant there; otherwise the sentinel
"Error missing text". A key holding a variant set (or absent) counts as
missing at that layer, so the hypotheses quantify over every possible
Text content. -/
theorem t_spec (p : I18nPart) (k : String) :
    (∀ s, List.lookup k p.file_traductions = some (SectionValue.Text s) →
      p.t k = s) ∧
    ((∀ s, List.lookup k p.file_traductions ≠ some (SectionValue.Text s)) →
      ∀ s, List.lookup k p.fallback_traduction = some (SectionValue.Text s) →
        p.t k = s) ∧
    ((∀ s, List.lookup k p.file_traductions ≠ some (SectionValue.Text s)) →
      (∀ s, List.lookup k p.fallback_traduction ≠ some (SectionValue.Text s)) →
      p.t k = "Error missing text") := by
  refine ⟨?_, ?_, ?_⟩
  · intro s hs
    have hfile : get_text p.file_traductions k = some s := by
      simp [get_text, hs]
    simp [I18nPart.t, hfile, Option.orElse]
  · intro hn s hs
    have hfb : get_text p.fallback_traduction k = some s := by
      simp [get_text, hs]
    simp [I18nPart.t, text_lookup_none _ _ hn, hfb, Option.orElse]
  · intro hn1 hn2
    simp [I18nPart.t, text_lookup_none _ _ hn1, text_lookup_none _ _ hn2,
      Option.orElse]

/-- C6 (witness): on a concrete pair, a key present only in the fallback
section resolves from there, and a key present in the primary section
resolves from the primary section. -/
theorem t_spec_witness : pText.t "b" = "B" ∧ pText.t "a" = "A" :=
  ⟨(t_spec pText "b").2.1 (fun _ h => Option.noConfusion h) "B" rfl,
   (t_spec pText "a").1 "A" rfl⟩

/-- C7 (counterexample): the "none" bucket is absent from the primary
section's variant set but present in the fallback section's; the result
is taken from the fallback variant set (count appended), not the
sentinel — a substitute variant set is consulted for the bucket key. -/
theorem missing_bucket_uses_fallback_set :
    pBuckets.t_with_plurial "k" 0 = "Z0" ∧
      pBuckets.t_with_plurial "k" 0 ≠ "Error missing text" := by
  decide

/-- C7 (amended): when the selected bucket is absent from the primary
section's variant set, the fallback section's variant set is consulted
for the same bucket key; the sentinel appears only when the bucket is
absent there as well (no different bucket is ever consulted), and
`t_with_plurial` still appends the count to whatever line results, the
sentinel included. -/
theorem variant_bucket_fallback (p : I18nPart) (key g : String)
    (count : Nat) (m : List (String × String))
    (hm : List.lookup key p.file_traductions = some (SectionValue.Map m))
    (hg : List.lookup g m = none) :
    (∀ m' s, List.lookup key p.fallback_traduction = some (SectionValue.Map m') →
      List.lookup g m' = some s → p.t_with_gender key g = s) ∧
    ((∀ m', List.lookup key p.fallback_traduction = some (SectionValue.Map m') →
        List.lookup g m' = none) →
      p.t_with_gender key g = "Error missing text") ∧
    (bucketOf count = g →
      p.t_with_plurial key count =
        rebuildWithCount (argSplit (p.t_with_gender key g)) false count) := by
  have hA : ((get_hash p.file_traductions key).bind fun h => List.lookup g h)
      = none := by
    simp [get_hash, hm, hg]
  refine ⟨?_, ?_, ?_⟩
  · intro m' s hm' hs
    simp [I18nPart.t_with_gender, get_line, get_hash, hm, hg, hm', hs,
      Option.orElse]
  · intro hnone
    simp [I18nPart.t_with_gender, get_line, hA,
      variant_lookup_none p.fallback_traduction key g hnone, Option.orElse]
  · intro hbg
    rw [t_with_plurial_eq_bucket, hbg]
    rfl

/-- C7 (witness): the amended theorem applied to the concrete pair whose
primary set lacks the "none" bucket: the fallback set's entry is used. -/
theorem variant_bucket_fallback_witness :
    pBuckets.t_with_gender "k" "none" = "Z" ∧
      pBuckets.t_with_plurial "k" 0 =
        rebuildWithCount (argSplit (pBuckets.t_with_gender "k" "none")) false 0 :=
  ⟨(variant_bucket_fallback pBuckets "k" "none" 0 [("one", "A")] rfl rfl).1
      [("none", "Z")] "Z" rfl rfl,
    (variant_bucket_fallback pBuckets "k" "none" 0 [("one", "A")] rfl rfl).2.2 rfl⟩

/-- C8: for a locale absent from the discovered folder list, `set_lang`
and `set_fallback_lang` return the state unchanged (both language fields
kept) and expose no error to the caller: the return type carries no
error, matching the silent no-op of the source. -/
theorem set_lang_unknown_noop (i : I18n) (locale : String)
    (h : locale ∉ i.locale_folders_list) :
    i.set_lang locale = i ∧ i.set_fallback_lang locale = i :=
  ⟨set_lang_not_mem i locale h, set_fallback_lang_not_mem i locale h⟩

/-- C8 (witness): switching to the undiscovered locale "xx" leaves a
concrete state untouched. -/
theorem set_lang_unknown_noop_witness :
    iTwoLangs.set_lang "xx" = iTwoLangs ∧
      iTwoLangs.set_fallback_lang "xx" = iTwoLangs :=
  set_lang_unknown_noop iTwoLangs "xx" (by decide)

/-- C9: `t_with_gender` selects the variant whose bucket key equals the
supplied tag verbatim (first from the primary section's set), and when
the tag matches no bucket in either section's variant set the result is
the sentinel string — an ordinary string, not an error. -/
theorem t_with_gender_spec (p : I18nPart) (key g : String) :
    (∀ m s, List.lookup key p.file_traductions = some (SectionValue.Map m) →
      List.lookup g m = some s → p.t_with_gender key g = s) ∧
    ((∀ m, List.lookup key p.file_traductions = some (SectionValue.Map m) →
        List.lookup g m = none) →
      (∀ m, List.lookup key p.fallback_traduction = some (SectionValue.Map m) →
        List.lookup g m = none) →
      p.t_with_gender key g = "Error missing text") := by
  constructor
  · intro m s hm hs
    simp [I18nPart.t_with_gender, get_line, get_hash, hm, hs, Option.orElse]
  · intro h1 h2
    simp [I18nPart.t_with_gender, get_line,
      variant_lookup_none p.file_traductions key g h1,
      variant_lookup_none p.fallback_traduction key g h2, Option.orElse]

/-- C9 (witness): tag "fem" selects the primary section's variant
verbatim; tag "neutral" against a pair without variant sets for it
produces the sentinel. -/
theorem t_with_gender_spec_witness :
    pGender.t_with_gender "who" "fem" = "elle" ∧
      pGenderText.t_with_gender "who" "neutral" = "Error missing text" :=
  ⟨(t_with_gender_spec pGender "who" "fem").1
      [("masc", "il"), ("fem", "elle")] "elle" rfl rfl,
   (t_with_gender_spec pGenderText "who" "neutral").2
      (fun _ hm => SectionValue.noConfusion (Option.some.inj hm))
      (fun _ hm => Option.noConfusion hm)⟩

/-- C10: an `I18nPart` is a snapshot. Language-switch requests never
touch the catalog, and rebuilding the view from the post-switch catalog
with the original language codes yields the very same pair, so the
results of t, t_with_arg, t_with_plurial, t_with_gender and
t_with_gender_and_arg on a previously obtained pair coincide with those
on the pair obtained after any operation sequence. -/
theorem view_is_snapshot (i : I18n) (ops : List LangOp) (f : String) :
    (applyOps i ops).translations = i.translations ∧
    ({ applyOps i ops with
        current_lang := i.current_lang
        fallback_lang := i.fallback_lang } : I18n).translation f
      = i.translation f ∧
    ∀ p q, i.translation f = some p →
      ({ applyOps i ops with
          current_lang := i.current_lang
          fallback_lang := i.fallback_lang } : I18n).translation f = some q →
      ∀ k g (n : Nat) (args : List String),
        q.t k = p.t k ∧
        q.t_with_arg k args = p.t_with_arg k args ∧
        q.t_with_plurial k n = p.t_with_plurial k n ∧
        q.t_with_gender k g = p.t_with_gender k g ∧
        q.t_with_gender_and_arg k g args = p.t_with_gender_and_arg k g args := by
  have h2 : ({ applyOps i ops with
      current_lang := i.current_lang
      fallback_lang := i.fallback_lang } : I18n).translation f
      = i.translation f :=
    translation_congr _ _ f (applyOps_translations i ops) rfl rfl
  refine ⟨applyOps_translations i ops, h2, ?_⟩
  intro p q hp hq k g n args
  have hqp : some q = some p := by rw [← hq, h2, hp]
  cases Option.some.inj hqp
  exact ⟨rfl, rfl, rfl, rfl, rfl⟩

/-- C10 (witness): the snapshot theorem applied to a concrete state and
a concrete language switch, with the view computed before the switch. -/
theorem view_is_snapshot_witness :
    (applyOps iSnap [LangOp.setLang "en"]).translations = iSnap.translations ∧
      pSnap.t "hello" = pSnap.t "hello" :=
  ⟨(view_is_snapshot iSnap [LangOp.setLang "en"] "ui").1,
   ((view_is_snapshot iSnap [LangOp.setLang "en"] "ui").2.2 pSnap pSnap rfl rfl
      "hello" "g" 0 []).1⟩

end BevyIntl
